import Mathlib

/-!
# Verification of the BetSwirl action provider (TypeScript) against its specification

Shallow embedding of `src/typescript/agentkit/src/action-providers/betSwirl/`
(`schemas.ts`, the `betswirl` utility module, and `betSwirlActionProvider.ts`).

External collaborators (wallet provider, casino-contract SDK, fee API, subgraph
indexer) are modelled as an oracle environment `Env`: each network interaction the
code performs is recorded as an `Event` in a trace, and the oracle supplies the
response the external system would have produced.  Pure external helpers that the
code merely forwards values through (`parseUnits`, `rawTokenToToken`,
`formatTxnUrl`) are abstracted as function parameters, so theorems quantify over
every possible behaviour of the external library.
-/

namespace BetSwirl

/-- The token descriptor used by the code (`Token` from the SDK): symbol,
contract address and decimal precision. -/
structure Token where
  symbol : String
  address : String
  decimals : Nat
deriving DecidableEq, Repr

/-- The three casino game variants exposed by this repository. -/
inductive GameType where
  | cointoss
  | dice
  | roulette
deriving DecidableEq, Repr

/-- Parsed bet requirements (`parseRawBetRequirements` output as used by
`placeBet`): allowed flag, maximum bet amount (a bigint) and maximum bet
count (a number). -/
structure BetRequirements where
  isAllowed : Bool
  maxBetAmount : Int
  maxBetCount : Nat
deriving DecidableEq, Repr

/-- The record of per-game parameters `placeBet` receives
(`casinoGameParams` in the source). -/
structure CasinoGameParams where
  betAmount : Int
  betToken : Token
  betCount : Nat
  receiver : String
  stopGain : Int
  stopLoss : Int
deriving DecidableEq, Repr

/-- An indexer error object (`betData.error` / `bets.error`): error code and
message. -/
structure IndexerError where
  code : String
  message : String
deriving DecidableEq, Repr

/-- A raw bet record as returned by the indexer (`betData.bet`), restricted to
the fields the code reads. -/
structure RawBet where
  id : String
  isResolved : Bool
  decodedInput : String
  betTxnHash : String
  formattedBetAmount : String
  tokenSymbol : String
  isWin : Bool
  formattedPayoutMultiplier : Int
  decodedRolled : List String
  formattedPayout : String
  rollTxnHash : Option String
  game : String
deriving DecidableEq, Repr

/-- Result object of one `fetchBetByHash` call: an optional bet and an optional
error. -/
structure FetchBetResult where
  bet : Option RawBet
  error : Option IndexerError
deriving DecidableEq, Repr

/-- Result object of one `fetchBets` call: a list of bets and an optional
error. -/
structure FetchBetsResult where
  bets : List RawBet
  error : Option IndexerError
deriving DecidableEq, Repr

/-- The observable interactions with external systems, recorded as a trace.
`placeBetCall` records the invocation of `placeBet` (with the parameter record
it received); the others are network calls: the game-paused contract read in
`checkLiveGame`, the casino-token-list contract read in `getCasinoTokens`, the
bet-requirements contract read in `getBetRequirements`, the fee-API HTTP call in
`getChainlinkVrfCost`, the wallet `sendTransaction` (recording the VRF cost the
value computation received), and the indexer fetches of `getBet`. -/
inductive Event where
  | readGamePaused
  | readCasinoTokens
  | readBetRequirements
  | fetchVrfFee
  | sendTransaction (vrfCost : Int)
  | indexerFetch (i : Nat)
  | placeBetCall (game : GameType) (p : CasinoGameParams)
deriving DecidableEq, Repr

/-- True exactly for the events that are network calls (contract reads, the
fee-API HTTP call, transaction submission, indexer fetches); `placeBetCall` is
an internal call marker, not a network call. -/
def Event.isNetworkCall : Event → Bool
  | .placeBetCall _ _ => false
  | _ => true

/-- Oracle environment: the chain context plus the response each external
system would give.  `fetchBet i` is the result of the i-th `fetchBetByHash`
call of the resolution poller. -/
structure Env where
  nativeCurrency : Token
  walletAddress : String
  chainSlug : String
  fmtTxnUrl : String → String
  gamePaused : Except String Bool
  casinoTokens : Except String (List Token)
  betRequirements : Except String BetRequirements
  vrfFee : Except String Int
  sendTx : Except String String
  fetchBet : Nat → FetchBetResult
  fetchBets : FetchBetsResult

/-- JavaScript BigInt division `/`: truncation toward zero
(`(a * 120n) / 100n` in the source). -/
def bigIntDiv (a b : Int) : Int := Int.tdiv a b

/-- Embedding of `getBetToken` (betswirl utility, lines 146-163).  The JS
condition `tokenSymbolInput && tokenSymbolInput !== nativeCurrency.symbol`
is falsy when the symbol is absent or the empty string.  Returns the result
together with the trace of network calls. -/
def getBetToken (env : Env) (tokenSymbolInput : Option String) :
    Except String Token × List Event :=
  match tokenSymbolInput with
  | none => (.ok env.nativeCurrency, [])
  | some s =>
    if s = "" ∨ s = env.nativeCurrency.symbol then
      (.ok env.nativeCurrency, [])
    else
      match env.casinoTokens with
      | .error e => (.error e, [.readCasinoTokens])
      | .ok casinoTokens =>
        match casinoTokens.find? (fun t => t.symbol = s) with
        | some t => (.ok t, [.readCasinoTokens])
        | none =>
          (.error ("The token must be one of " ++
              String.intercalate ", " (casinoTokens.map Token.symbol)),
           [.readCasinoTokens])

/-- Embedding of `getBetAmountInWei` (lines 173-179).  `parseUnits` (viem) is
abstracted as a parameter: the conversion of a decimal string at the token's
declared decimal precision. -/
def getBetAmountInWei (parseUnits : String → Nat → Int) (betAmount : String)
    (token : Token) : Except String Int :=
  let betAmountInWei := parseUnits betAmount token.decimals
  if betAmountInWei ≤ 0 then .error "The bet amount must be greater than 0"
  else .ok betAmountInWei

/-- Embedding of `placeBet` (lines 292-366): fetch and check bet requirements
(token allowed, amount not above maximum, count not above maximum), then fetch
the VRF fee from the API, inflate it by 20% in BigInt arithmetic, and submit the
transaction.  The requirement-check throws happen outside the try block; the
fee fetch and submission are wrapped by the catch. -/
def placeBet (env : Env) (game : GameType) (p : CasinoGameParams) :
    Except String String × List Event :=
  match env.betRequirements with
  | .error e =>
    (.error ("An error occured while getting the bet requirements: Error: " ++ e),
     [.placeBetCall game p, .readBetRequirements])
  | .ok betRequirements =>
    if !betRequirements.isAllowed then
      (.error "The token isn't allowed for betting",
       [.placeBetCall game p, .readBetRequirements])
    else if betRequirements.maxBetAmount < p.betAmount then
      (.error ("Bet amount should be less than " ++ toString betRequirements.maxBetAmount),
       [.placeBetCall game p, .readBetRequirements])
    else if betRequirements.maxBetCount < p.betCount then
      (.error ("Bet count should be less than " ++ toString betRequirements.maxBetCount),
       [.placeBetCall game p, .readBetRequirements])
    else
      match env.vrfFee with
      | .error e =>
        (.error ("An error occured while placing the bet: Error: An error occured while getting the chainlink vrf cost: Error: " ++ e),
         [.placeBetCall game p, .readBetRequirements, .fetchVrfFee])
      | .ok fee =>
        let vrfCost := bigIntDiv (fee * 120) 100
        match env.sendTx with
        | .error e =>
          (.error ("An error occured while placing the bet: Error: " ++ e),
           [.placeBetCall game p, .readBetRequirements, .fetchVrfFee,
            .sendTransaction vrfCost])
        | .ok betHash =>
          (.ok betHash,
           [.placeBetCall game p, .readBetRequirements, .fetchVrfFee,
            .sendTransaction vrfCost])

/-- The loop condition of `getBet`'s poller (line 391):
`(!betData.bet || !betData.bet.isResolved) && !betData.error`, with JS
short-circuiting of the missing-bet case. -/
def pollCondition (bd : FetchBetResult) : Bool :=
  (match bd.bet with
   | none => true
   | some b => !b.isResolved) && bd.error.isNone

/-- Embedding of the `while` loop of `getBet` (lines 389-400) under the
deterministic timing abstraction the spec uses ("poll subgraph every second,
fail after 60s"): each iteration sleeps exactly 1000 ms and the fetches are
instantaneous, so `Date.now() - startTime` at the k-th loop check is
`1000 * k`.  `bd` is the current `betData` and `k` the index of the fetch that
produced it; the result pairs either the timeout error or the final `betData`
with the index of the last fetch performed. -/
def getBetLoop (fetch : Nat → FetchBetResult) (bd : FetchBetResult) (k : Nat) :
    Except String FetchBetResult × Nat :=
  if pollCondition bd then
    if h : 60000 ≤ 1000 * k then
      (.error "Timeout: Bet data retrieval exceeded 1 minute.", k)
    else
      let bd2 := fetch (k + 1)
      if bd2.error.isSome then (.ok bd2, k + 1)
      else getBetLoop fetch bd2 (k + 1)
  else (.ok bd, k)
termination_by 61 - k
decreasing_by omega

/-- Embedding of the result-record construction of `getBet` (lines 408-422)
and `getSubgraphBets` (lines 482-496): a pure mapping from the raw indexer
record to the public `BetDetails` shape. -/
structure BetDetails where
  id : String
  input : String
  betTxnHash : String
  betTxnLink : String
  betAmount : String
  token : String
  isWin : Bool
  payoutMultiplier : Int
  rolled : List String
  payout : String
  rollTxnHash : Option String
  rollTxnLink : Option String
  linkOnBetSwirl : String
deriving DecidableEq, Repr

/-- The formatter shared by `getBet` and `getSubgraphBets`: copies/renames
fields, derives transaction links through `formatTxnUrl` (abstracted in
`Env.fmtTxnUrl`), nulls the roll link when the roll hash is absent, and
string-templates the BetSwirl display URL from chain slug, game and id. -/
def formatBet (env : Env) (bet : RawBet) : BetDetails :=
  { id := bet.id
    input := bet.decodedInput
    betTxnHash := bet.betTxnHash
    betTxnLink := env.fmtTxnUrl bet.betTxnHash
    betAmount := bet.formattedBetAmount
    token := bet.tokenSymbol
    isWin := bet.isWin
    payoutMultiplier := bet.formattedPayoutMultiplier
    rolled := bet.decodedRolled
    payout := bet.formattedPayout
    rollTxnHash := bet.rollTxnHash
    rollTxnLink := match bet.rollTxnHash with
      | some h => some (env.fmtTxnUrl h)
      | none => none
    linkOnBetSwirl := "https://www.betswirl.com/" ++ env.chainSlug ++
      "/casino/" ++ bet.game ++ "/" ++ bet.id }

/-- The wrapping applied by `getBet`'s and `getSubgraphBets`' outer catch
(lines 424 and 498): any error thrown inside the try block is re-thrown as
`An error occured while getting the bet: ${error}` (JS stringifies an `Error`
as `Error: <message>`). -/
def wrapGetBetError (msg : String) : String :=
  "An error occured while getting the bet: Error: " ++ msg

/-- The message `getBet` builds from an indexer error object (line 402). -/
def indexerErrorMsg (e : IndexerError) : String :=
  "[" ++ e.code ++ "] Error fetching bet: " ++ e.message

/-- Embedding of `getBet` (lines 377-426): fetch once, then poll every second
until the bet is resolved, the indexer reports an error, or 60 seconds elapse.
Returns the result together with the total number of `fetchBetByHash` calls
performed. -/
def getBet (env : Env) (txHash : String) : Except String BetDetails × Nat :=
  let bd0 := env.fetchBet 0
  match getBetLoop env.fetchBet bd0 0 with
  | (.error e, k) => (.error (wrapGetBetError e), k + 1)
  | (.ok bd, k) =>
    match bd.error with
    | some err => (.error (wrapGetBetError (indexerErrorMsg err)), k + 1)
    | none =>
      match bd.bet with
      | none =>
        (.error (wrapGetBetError
            ("The bet hasn't been indexed in time, please retry later: " ++ txHash)),
         k + 1)
      | some bet => (.ok (formatBet env bet), k + 1)

/-- Embedding of `getSubgraphBets` (lines 462-500): one indexer list query of
page size 5; an indexer error is re-thrown as
`[code] Error fetching bets: message` and wrapped again by the outer catch;
otherwise each raw bet is mapped through the formatter. -/
def getSubgraphBets (env : Env) : Except String (List BetDetails) :=
  let bets := env.fetchBets
  match bets.error with
  | some err =>
    .error (wrapGetBetError ("[" ++ err.code ++ "] Error fetching bets: " ++ err.message))
  | none => .ok (bets.bets.map (formatBet env))

/-- A raw on-chain casino token record (`RawCasinoToken` from the SDK) as read
by `getCasinoTokens`: the nested token info with its allowed and paused flags,
and the decimals field. -/
structure RawTokenInfo where
  tokenAddress : String
  tokenSymbol : String
  allowed : Bool
  paused : Bool
deriving DecidableEq, Repr

/-- The outer raw record: `rawToken.token` plus `rawToken.decimals`. -/
structure RawCasinoToken where
  token : RawTokenInfo
  decimals : Nat
deriving DecidableEq, Repr

/-- Embedding of `getCasinoTokens` (lines 434-450): read the raw token list
from the contract, keep only records with `token.allowed && !token.paused`,
and map each through the SDK's `rawTokenToToken` (abstracted as `conv`) with
the decimals field overridden by `Number(rawToken.decimals)`. -/
def getCasinoTokens (conv : RawCasinoToken → Token) (raws : List RawCasinoToken) :
    List Token :=
  (raws.filter (fun r => r.token.allowed && !r.token.paused)).map
    (fun r => { conv r with decimals := r.decimals })

/-- The validated argument record accepted by the three bet actions
(`casinoBetParams` plus the per-game extras): the schema accepts and validates
`betCount`, `stopGain`, `stopLoss` and `receiver`, but the handlers ignore
them. -/
structure CasinoBetArgs where
  betAmount : String
  token : Option String := none
  stopGain : Option String := none
  stopLoss : Option String := none
  receiver : Option String := none
  betCount : Option Nat := none
deriving DecidableEq, Repr

/-- The common body of the three bet actions `coinToss`, `dice` and `roulette`
(`betSwirlActionProvider.ts`, lines 87-117, 146-176, 205-235).  The three
methods differ only in the game tag and in the SDK-encoded game input and
multiplier, which are opaque pass-through values in this model: check the live
game (the result is not inspected by the source either), resolve the bet token,
convert the amount, place the bet with `betCount = 1`, `receiver` the wallet's
own address and zero stop-gain/stop-loss, then poll for resolution. -/
def runCasinoBetAction (parseUnits : String → Nat → Int) (env : Env)
    (game : GameType) (args : CasinoBetArgs) :
    Except String BetDetails × List Event :=
  match env.gamePaused with
  | .error e => (.error e, [.readGamePaused])
  | .ok _paused =>
    let tokR := getBetToken env args.token
    match tokR.1 with
    | .error e => (.error e, .readGamePaused :: tokR.2)
    | .ok selectedToken =>
      match getBetAmountInWei parseUnits args.betAmount selectedToken with
      | .error e => (.error e, .readGamePaused :: tokR.2)
      | .ok betAmountInWei =>
        let p : CasinoGameParams :=
          { betAmount := betAmountInWei
            betToken := selectedToken
            betCount := 1
            receiver := env.walletAddress
            stopGain := 0
            stopLoss := 0 }
        let pbR := placeBet env game p
        match pbR.1 with
        | .error e => (.error e, .readGamePaused :: tokR.2 ++ pbR.2)
        | .ok betHash =>
          let gbR := getBet env betHash
          (gbR.1,
           .readGamePaused :: tokR.2 ++ pbR.2 ++
             (List.range gbR.2).map Event.indexerFetch)

/-- The `coinToss` action (lines 87-117). -/
def coinTossAction (parseUnits : String → Nat → Int) (env : Env)
    (args : CasinoBetArgs) : Except String BetDetails × List Event :=
  runCasinoBetAction parseUnits env GameType.cointoss args

/-- The `dice` action (lines 146-176). -/
def diceAction (parseUnits : String → Nat → Int) (env : Env)
    (args : CasinoBetArgs) : Except String BetDetails × List Event :=
  runCasinoBetAction parseUnits env GameType.dice args

/-- The `roulette` action (lines 205-235). -/
def rouletteAction (parseUnits : String → Nat → Int) (env : Env)
    (args : CasinoBetArgs) : Except String BetDetails × List Event :=
  runCasinoBetAction parseUnits env GameType.roulette args

/-! ## Schema validators (`schemas.ts`) -/

/-- Character class `[a-fA-F0-9]` of the two validation regexes. -/
def isRegexHexDigit (c : Char) : Bool :=
  ('a' ≤ c && c ≤ 'f') || ('A' ≤ c && c ≤ 'F') || ('0' ≤ c && c ≤ '9')

/-- An anchored match of the pattern `^0x[hex]{n}$`: the whole character list
is `0x` followed by exactly `n` hex digits. -/
def matchFixedHex (n : Nat) : List Char → Bool
  | c0 :: c1 :: rest =>
    c0 = '0' && c1 = 'x' && rest.length == n && rest.all isRegexHexDigit
  | _ => false

/-- Embedding of the `hexAddress` validator (schemas.ts lines 12-14): the
regex `^0x[a-fA-F0-9]{40}$` is anchored at both ends, so it accepts exactly
the strings that are `0x` followed by 40 hex digits. -/
def hexAddressAccepts (s : String) : Bool := matchFixedHex 40 s.data

/-- Whether the pattern `0x[0-9a-fA-F]{64}` matches at the start of the
character list (no end anchor: trailing characters are allowed). -/
def hashPatternAt : List Char → Bool
  | c0 :: c1 :: rest =>
    c0 = '0' && c1 = 'x' && 64 ≤ rest.length && (rest.take 64).all isRegexHexDigit
  | _ => false

/-- Regex search: whether `0x[0-9a-fA-F]{64}` matches at some position. -/
def hashSearch : List Char → Bool
  | [] => false
  | c :: cs => hashPatternAt (c :: cs) || hashSearch cs

/-- Embedding of the `hash` field validator of `GetBetSchema` (schemas.ts
lines 71-76): the regex `/0x[0-9a-fA-F]{64}/` carries no anchors, so zod's
`.regex` (which uses `RegExp.test`) accepts any string CONTAINING `0x`
followed by 64 hex digits anywhere. -/
def getBetHashAccepts (s : String) : Bool := hashSearch s.data

/-- Modelled from the spec: `MIN_SELECTABLE_DICE_NUMBER` is imported from
`@betswirl/sdk-core`, which is not part of this repository.  The dice action
description ("rolling an onchain dice of 100 faces. The player is betting that
the rolled number will be above this chosen number") and the repository tests
(38 accepted, 290 rejected) fix the selectable range to 1..99. -/
def MIN_SELECTABLE_DICE_NUMBER : Int := 1

/-- Modelled from the spec: `MAX_SELECTABLE_DICE_NUMBER` from
`@betswirl/sdk-core` (see `MIN_SELECTABLE_DICE_NUMBER`). -/
def MAX_SELECTABLE_DICE_NUMBER : Int := 99

/-- Modelled from the spec: `MIN_SELECTABLE_ROULETTE_NUMBER` is imported from
`@betswirl/sdk-core`, which is not part of this repository.  A roulette wheel
carries the numbers 0..36; the repository tests accept `[14, 32]` and reject
`[50]`. -/
def MIN_SELECTABLE_ROULETTE_NUMBER : Int := 0

/-- Modelled from the spec: `MAX_SELECTABLE_ROULETTE_NUMBER` from
`@betswirl/sdk-core` (see `MIN_SELECTABLE_ROULETTE_NUMBER`). -/
def MAX_SELECTABLE_ROULETTE_NUMBER : Int := 36

/-- Embedding of the `number` field validator of `DiceSchema` (schemas.ts
lines 48-56): `z.number().gte(MIN).lte(MAX)`.  Numeric values are modelled as
integers. -/
def diceNumberAccepts (n : Int) : Bool :=
  MIN_SELECTABLE_DICE_NUMBER ≤ n && n ≤ MAX_SELECTABLE_DICE_NUMBER

/-- Embedding of the `numbers` field validator of `RouletteSchema` (schemas.ts
lines 58-69): an array of numbers each in
`[MIN_SELECTABLE_ROULETTE_NUMBER, MAX_SELECTABLE_ROULETTE_NUMBER]`, of length
at least 1 and at most `MAX_SELECTABLE_ROULETTE_NUMBER`. -/
def rouletteNumbersAccepts (l : List Int) : Bool :=
  l.all (fun n => MIN_SELECTABLE_ROULETTE_NUMBER ≤ n &&
    n ≤ MAX_SELECTABLE_ROULETTE_NUMBER) &&
  1 ≤ l.length && l.length ≤ MAX_SELECTABLE_ROULETTE_NUMBER.toNat

/-- Embedding of the `face` field validator of `CoinTossSchema` (schemas.ts
lines 42-46): `z.nativeEnum(COINTOSS_FACE)`.  Modelled from the spec: the
`COINTOSS_FACE` enum lives in `@betswirl/sdk-core`; its values are the faces
of a coin, `HEADS` and `TAILS` (the repository tests accept `TAILS` and reject
`BAR`). -/
def coinTossFaceAccepts (s : String) : Bool := s = "HEADS" || s = "TAILS"

/-! ## Concrete data used by the evaluation theorems -/

/-- A concrete native-currency token. -/
def tokETH : Token := { symbol := "ETH", address := "0xeeee", decimals := 18 }

/-- A concrete ERC-20 casino token. -/
def tokUSDC : Token := { symbol := "USDC", address := "0xusdc", decimals := 6 }

/-- A concrete resolved raw bet record. -/
def rawBetResolved : RawBet :=
  { id := "7", isResolved := true, decodedInput := "HEADS", betTxnHash := "0xbet",
    formattedBetAmount := "1.0", tokenSymbol := "ETH", isWin := true,
    formattedPayoutMultiplier := 2, decodedRolled := ["HEADS"],
    formattedPayout := "1.94", rollTxnHash := none, game := "coin-toss" }

/-- A concrete environment in which every oracle succeeds. -/
def baseEnv : Env :=
  { nativeCurrency := tokETH
    walletAddress := "0x1111111111111111111111111111111111111111"
    chainSlug := "base"
    fmtTxnUrl := fun h => "https://basescan.org/tx/" ++ h
    gamePaused := .ok false
    casinoTokens := .ok [tokUSDC]
    betRequirements := .ok { isAllowed := true, maxBetAmount := 10000000000000000000, maxBetCount := 100 }
    vrfFee := .ok 1000
    sendTx := .ok "0xbet"
    fetchBet := fun _ => { bet := some rawBetResolved, error := none }
    fetchBets := { bets := [], error := none } }

/-- A `parseUnits` oracle that maps every amount string to 0. -/
def zeroParseUnits : String → Nat → Int := fun _ _ => 0

/-- A `parseUnits` oracle that maps every amount string to 10^18 (one ether
in wei). -/
def oneEthParseUnits : String → Nat → Int := fun _ _ => 1000000000000000000

/-- The parameter record the bet actions hand to `placeBet` in the concrete
run used by the evaluation theorems. -/
def witnessBetParams : CasinoGameParams :=
  { betAmount := 1000000000000000000, betToken := tokETH, betCount := 1,
    receiver := baseEnv.walletAddress, stopGain := 0, stopLoss := 0 }

/-- The input the unanchored get-bet hash regex wrongly accepts: `0x`
followed by 65 (not 64) hex digits. -/
def badHashInput : String := String.mk ('0' :: 'x' :: List.replicate 65 '0')

/-- `baseEnv` with bet requirements reporting the token disallowed. -/
def disallowedEnv : Env :=
  { baseEnv with
    betRequirements := .ok { isAllowed := false, maxBetAmount := 10, maxBetCount := 10 } }

/-- `baseEnv` with the indexer list query reporting an error. -/
def betsErrorEnv : Env :=
  { baseEnv with
    fetchBets := { bets := [], error := some { code := "429", message := "rate limited" } } }

/-- A concrete `rawTokenToToken` oracle (the SDK conversion is abstract; this
one reads symbol and address from the raw record and leaves decimals to the
caller's override). -/
def convW : RawCasinoToken → Token :=
  fun r => Token.mk r.token.tokenSymbol r.token.tokenAddress 0

/-- A concrete raw token list: one allowed and unpaused token, one disallowed
token, one paused token. -/
def rawsW : List RawCasinoToken :=
  [ ⟨⟨"0xa", "AAA", true, false⟩, 18⟩,
    ⟨⟨"0xb", "BBB", false, false⟩, 18⟩,
    ⟨⟨"0xc", "CCC", true, true⟩, 18⟩ ]

/-- A fetch result that keeps the poller waiting: no indexer error and no
resolved bet. -/
def CleanFetch (bd : FetchBetResult) : Prop :=
  bd.error = none ∧ ∀ b, bd.bet = some b → b.isResolved = false

/-! ## Theorems -/

/-- A clean fetch result satisfies the loop condition. -/
theorem pollCondition_of_clean (bd : FetchBetResult) (h : CleanFetch bd) :
    pollCondition bd = true := by
  obtain ⟨herr, hbet⟩ := h
  rcases hb : bd.bet with _ | b
  · simp [pollCondition, hb, herr]
  · simp [pollCondition, hb, herr, hbet b hb]

/-- A fetch result carrying an indexer error falsifies the loop condition. -/
theorem pollCondition_eq_false_of_error (bd : FetchBetResult)
    (h : bd.error.isSome = true) : pollCondition bd = false := by
  rcases herr : bd.error with _ | e
  · rw [herr] at h; simp at h
  · simp [pollCondition, herr]

/-- When the loop condition fails, the loop returns the current fetch result
unchanged. -/
theorem getBetLoop_exit (fetch : Nat → FetchBetResult) (bd : FetchBetResult)
    (k : Nat) (h : pollCondition bd = false) :
    getBetLoop fetch bd k = (.ok bd, k) := by
  rw [getBetLoop, h]
  simp

/-- One iteration of the poller before the deadline: under the loop condition,
the state after fetch `k` advances to the state after fetch `k + 1` (whether
or not fetch `k + 1` carries an error). -/
theorem getBetLoop_step (fetch : Nat → FetchBetResult) (k : Nat) (hk : k < 60)
    (hc : pollCondition (fetch k) = true) :
    getBetLoop fetch (fetch k) k = getBetLoop fetch (fetch (k + 1)) (k + 1) := by
  have hlt : ¬ 60000 ≤ 1000 * k := by omega
  by_cases he : (fetch (k + 1)).error.isSome = true
  · rw [getBetLoop_exit fetch (fetch (k + 1)) (k + 1)
      (pollCondition_eq_false_of_error _ he)]
    conv_lhs => rw [getBetLoop]
    simp [hc, hlt, he]
  · conv_lhs => rw [getBetLoop]
    simp [hc, hlt, he]

/-- Advancing the poller over a run of clean fetches. -/
theorem getBetLoop_clean_advance (fetch : Nat → FetchBetResult) :
    ∀ (n k : Nat), k + n ≤ 60 →
      (∀ i, k ≤ i → i < k + n → CleanFetch (fetch i)) →
      getBetLoop fetch (fetch k) k = getBetLoop fetch (fetch (k + n)) (k + n) := by
  intro n
  induction n with
  | zero => intro k _ _; rfl
  | succ m ih =>
    intro k hk hclean
    have hstep : getBetLoop fetch (fetch k) k =
        getBetLoop fetch (fetch (k + 1)) (k + 1) :=
      getBetLoop_step fetch k (by omega)
        (pollCondition_of_clean _ (hclean k (le_refl k) (by omega)))
    have hrest := ih (k + 1) (by omega) (fun i h1 h2 => hclean i (by omega) (by omega))
    have he : (k + 1) + m = k + (m + 1) := by omega
    rw [hstep, hrest, he]

/-- At the 60-second deadline the poller times out. -/
theorem getBetLoop_timeout (fetch : Nat → FetchBetResult)
    (hc : pollCondition (fetch 60) = true) :
    getBetLoop fetch (fetch 60) 60 =
      (.error "Timeout: Bet data retrieval exceeded 1 minute.", 60) := by
  rw [getBetLoop, hc]
  simp

/-- **C2**: under the poller's 1-second tick model — if the indexer reports
the bet resolved at some fetch before 60 seconds elapse (all earlier fetches
clean), the resolved record is returned after exactly those fetches; if a
fetch reports an explicit error (all earlier fetches clean), the call fails
immediately with that error and performs no further fetch; and if every fetch
through the 60-second deadline is clean, the call fails with the timeout
error after fetch 60 and performs no further polling. -/
theorem c2_resolution_poller :
    ∀ (env : Env) (txHash : String),
      (∀ (j : Nat) (b : RawBet),
        (∀ i, i < j → CleanFetch (env.fetchBet i)) →
        1000 * j < 60000 →
        (env.fetchBet j).error = none →
        (env.fetchBet j).bet = some b →
        b.isResolved = true →
        getBet env txHash = (.ok (formatBet env b), j + 1)) ∧
      (∀ (j : Nat) (e : IndexerError),
        (∀ i, i < j → CleanFetch (env.fetchBet i)) →
        j ≤ 60 →
        (env.fetchBet j).error = some e →
        getBet env txHash = (.error (wrapGetBetError (indexerErrorMsg e)), j + 1)) ∧
      ((∀ i, i ≤ 60 → CleanFetch (env.fetchBet i)) →
        getBet env txHash =
          (.error (wrapGetBetError "Timeout: Bet data retrieval exceeded 1 minute."),
           61)) := by
  intro env txHash
  refine ⟨?_, ?_, ?_⟩
  · intro j b hclean hj herr hbet hres
    have hadv := getBetLoop_clean_advance env.fetchBet j 0 (by omega)
      (fun i h1 h2 => hclean i (by omega))
    simp only [Nat.zero_add] at hadv
    have hpoll : pollCondition (env.fetchBet j) = false := by
      simp [pollCondition, hbet, hres]
    have hloop : getBetLoop env.fetchBet (env.fetchBet 0) 0 =
        (.ok (env.fetchBet j), j) := by
      rw [hadv]
      exact getBetLoop_exit env.fetchBet (env.fetchBet j) j hpoll
    unfold getBet
    simp [hloop, herr, hbet]
  · intro j e hclean hj herr
    rcases Nat.eq_zero_or_pos j with hj0 | hjpos
    · subst hj0
      have hloop := getBetLoop_exit env.fetchBet (env.fetchBet 0) 0
        (pollCondition_eq_false_of_error _ (by simp [herr]))
      unfold getBet
      simp [hloop, herr]
    · obtain ⟨m, rfl⟩ : ∃ m, j = m + 1 := ⟨j - 1, by omega⟩
      have hadv := getBetLoop_clean_advance env.fetchBet m 0 (by omega)
        (fun i h1 h2 => hclean i (by omega))
      simp only [Nat.zero_add] at hadv
      have hstep := getBetLoop_step env.fetchBet m (by omega)
        (pollCondition_of_clean _ (hclean m (by omega)))
      have hexit := getBetLoop_exit env.fetchBet (env.fetchBet (m + 1)) (m + 1)
        (pollCondition_eq_false_of_error _ (by simp [herr]))
      unfold getBet
      simp [hadv, hstep, hexit, herr]
  · intro hclean
    have hadv := getBetLoop_clean_advance env.fetchBet 60 0 (by omega)
      (fun i h1 h2 => hclean i (by omega))
    simp only [Nat.zero_add] at hadv
    have htim := getBetLoop_timeout env.fetchBet
      (pollCondition_of_clean _ (hclean 60 (by omega)))
    unfold getBet
    simp [hadv, htim]

/-- Concrete instantiation of `c2_resolution_poller`: a bet resolved at the
very first fetch is returned after exactly one fetch. -/
theorem c2_resolution_poller_witness :
    getBet baseEnv "0xbet" = (.ok (formatBet baseEnv rawBetResolved), 1) :=
  (c2_resolution_poller baseEnv "0xbet").1 0 rawBetResolved
    (fun i hi => absurd hi (Nat.not_lt_zero i)) (by omega) rfl rfl rfl

/-- Characterisation of the anchored fixed-length pattern `^0x[hex]{n}$`. -/
theorem matchFixedHex_iff (n : Nat) (cs : List Char) :
    matchFixedHex n cs = true ↔
      ∃ t, cs = '0' :: 'x' :: t ∧ t.length = n ∧ ∀ c ∈ t, isRegexHexDigit c = true := by
  match cs with
  | [] => simp [matchFixedHex]
  | [c] => simp [matchFixedHex]
  | c0 :: c1 :: rest =>
    simp only [matchFixedHex, Bool.and_eq_true, decide_eq_true_eq, beq_iff_eq,
      List.all_eq_true]
    constructor
    · rintro ⟨⟨⟨h0, h1⟩, hl⟩, hall⟩
      exact ⟨rest, by simp [h0, h1], hl, hall⟩
    · rintro ⟨t, het, hl, hall⟩
      injection het with h0 hrest
      injection hrest with h1 ht
      subst h0; subst h1; subst ht
      exact ⟨⟨⟨rfl, rfl⟩, hl⟩, hall⟩

/-- **C4** (code bug, hash part): the `hexAddress` validator accepts exactly
the strings of the form `0x` followed by 40 hex digits, as claimed; but the
`GetBetSchema` hash validator, whose regex `/0x[0-9a-fA-F]{64}/` lacks the
`^`/`$` anchors of its `hexAddress` sibling, accepts `badHashInput` — `0x`
followed by 65 hex digits — which the claimed exact 64-digit pattern
(`matchFixedHex 64`) rejects. -/
theorem c4_fixed_length_hex_validators :
    (∀ s : String, hexAddressAccepts s = true ↔
      ∃ t : List Char, s.data = '0' :: 'x' :: t ∧ t.length = 40 ∧
        ∀ c ∈ t, isRegexHexDigit c = true) ∧
    getBetHashAccepts badHashInput = true ∧
    matchFixedHex 64 badHashInput.data = false := by
  refine ⟨fun s => matchFixedHex_iff 40 s.data, by decide, by decide⟩

/-- Concrete instantiation of `c4_fixed_length_hex_validators`: the address
validator accepts `0x` followed by 40 hex digits. -/
theorem c4_fixed_length_hex_validators_witness :
    hexAddressAccepts (String.mk ('0' :: 'x' :: List.replicate 40 'a')) = true :=
  (c4_fixed_length_hex_validators.1 _).mpr
    ⟨List.replicate 40 'a', rfl, by decide, by decide⟩

/-- **C9**: the dice validator accepts exactly the numbers in the selectable
range 1..99 (in particular 38, and not 290), the roulette validator accepts
exactly the non-empty lists of at most 36 numbers all within 0..36 (so a list
containing any out-of-range number is rejected), and the coin-toss face
validator accepts the coin faces and rejects other strings. -/
theorem c9_game_input_bounds :
    (∀ n : Int, diceNumberAccepts n = true ↔ 1 ≤ n ∧ n ≤ 99) ∧
    diceNumberAccepts 38 = true ∧
    diceNumberAccepts 290 = false ∧
    (∀ l : List Int, rouletteNumbersAccepts l = true ↔
      ((∀ n ∈ l, 0 ≤ n ∧ n ≤ 36) ∧ 1 ≤ l.length ∧ l.length ≤ 36)) ∧
    (∀ (l : List Int) (n : Int), n ∈ l → (n < 0 ∨ 36 < n) →
      rouletteNumbersAccepts l = false) ∧
    coinTossFaceAccepts "TAILS" = true ∧
    coinTossFaceAccepts "BAR" = false := by
  have hroul : ∀ l : List Int, rouletteNumbersAccepts l = true ↔
      ((∀ n ∈ l, 0 ≤ n ∧ n ≤ 36) ∧ 1 ≤ l.length ∧ l.length ≤ 36) := by
    intro l
    simp [rouletteNumbersAccepts, MIN_SELECTABLE_ROULETTE_NUMBER,
      MAX_SELECTABLE_ROULETTE_NUMBER, List.all_eq_true, and_assoc]
  refine ⟨?_, by decide, by decide, hroul, ?_, by decide, by decide⟩
  · intro n
    simp [diceNumberAccepts, MIN_SELECTABLE_DICE_NUMBER, MAX_SELECTABLE_DICE_NUMBER]
  · intro l n hmem hout
    cases hacc : rouletteNumbersAccepts l with
    | false => rfl
    | true =>
      obtain ⟨hall, -, -⟩ := (hroul l).mp hacc
      rcases hout with h | h
      · exact absurd (hall n hmem).1 (by omega)
      · exact absurd (hall n hmem).2 (by omega)

/-- Concrete instantiation of `c9_game_input_bounds`: the roulette list `[50]`
contains an out-of-range number, so it is rejected. -/
theorem c9_game_input_bounds_witness :
    rouletteNumbersAccepts [50] = false :=
  c9_game_input_bounds.2.2.2.2.1 [50] 50 (by decide) (by decide)

/-- The trace of `placeBet` has one of three shapes, depending on how far it
gets: requirements read only, requirements read plus fee fetch, or the full
sequence ending in the transaction submission. -/
theorem placeBet_trace_shape (env : Env) (game : GameType) (p : CasinoGameParams) :
    (placeBet env game p).2 = [.placeBetCall game p, .readBetRequirements] ∨
    (placeBet env game p).2 =
      [.placeBetCall game p, .readBetRequirements, .fetchVrfFee] ∨
    ∃ v, (placeBet env game p).2 =
      [.placeBetCall game p, .readBetRequirements, .fetchVrfFee,
       .sendTransaction v] := by
  unfold placeBet
  rcases env.betRequirements with e | req
  · simp
  · rcases env.vrfFee with e2 | fee <;> rcases env.sendTx with e3 | hx <;>
      simp <;> split_ifs <;> simp

/-- The only `placeBetCall` event in `placeBet`'s trace records the game and
parameter record `placeBet` itself received. -/
theorem placeBet_placeBetCall (env : Env) (game : GameType) (p : CasinoGameParams) :
    ∀ (g : GameType) (q : CasinoGameParams),
      Event.placeBetCall g q ∈ (placeBet env game p).2 → g = game ∧ q = p := by
  intro g q h
  rcases placeBet_trace_shape env game p with hs | hs | ⟨v, hs⟩ <;>
    rw [hs] at h <;> simp at h <;> exact ⟨h.1, h.2⟩

/-- **C1**: `placeBet` reads the bet requirements before any transaction is
submitted (in every trace, a `sendTransaction` event is preceded by the
requirements read), and when the requirements report the token disallowed, the
amount above the maximum, or the count above the maximum, `placeBet` fails with
the corresponding error and no `sendTransaction` event ever occurs. -/
theorem c1_requirements_gate_before_submission :
    ∀ (env : Env) (game : GameType) (p : CasinoGameParams),
      (∀ (pre post : List Event) (v : Int),
        (placeBet env game p).2 = pre ++ Event.sendTransaction v :: post →
        Event.readBetRequirements ∈ pre) ∧
      (∀ req, env.betRequirements = .ok req →
        (req.isAllowed = false →
          (placeBet env game p).1 = .error "The token isn't allowed for betting" ∧
          ∀ v, Event.sendTransaction v ∉ (placeBet env game p).2) ∧
        (req.isAllowed = true → req.maxBetAmount < p.betAmount →
          (placeBet env game p).1 =
            .error ("Bet amount should be less than " ++ toString req.maxBetAmount) ∧
          ∀ v, Event.sendTransaction v ∉ (placeBet env game p).2) ∧
        (req.isAllowed = true → p.betAmount ≤ req.maxBetAmount →
          req.maxBetCount < p.betCount →
          (placeBet env game p).1 =
            .error ("Bet count should be less than " ++ toString req.maxBetCount) ∧
          ∀ v, Event.sendTransaction v ∉ (placeBet env game p).2)) := by
  intro env game p
  constructor
  · intro pre post v h
    rcases placeBet_trace_shape env game p with hs | hs | ⟨w, hs⟩ <;> rw [hs] at h
    · have hmem : Event.sendTransaction v ∈
          [Event.placeBetCall game p, Event.readBetRequirements] := by
        rw [h]; simp
      simp at hmem
    · have hmem : Event.sendTransaction v ∈
          [Event.placeBetCall game p, Event.readBetRequirements,
           Event.fetchVrfFee] := by
        rw [h]; simp
      simp at hmem
    · rcases pre with _ | ⟨a, _ | ⟨b, _ | ⟨c, _ | ⟨d, r⟩⟩⟩⟩ <;> simp_all
  · intro req hreq
    refine ⟨?_, ?_, ?_⟩
    · intro hna
      constructor
      · simp [placeBet, hreq, hna]
      · intro v; simp [placeBet, hreq, hna]
    · intro ha hamt
      constructor
      · simp [placeBet, hreq, ha, hamt]
      · intro v; simp [placeBet, hreq, ha, hamt]
    · intro ha hamt hcnt
      have hn : ¬ (req.maxBetAmount < p.betAmount) := not_lt.mpr hamt
      constructor
      · simp [placeBet, hreq, ha, hn, hcnt]
      · intro v; simp [placeBet, hreq, ha, hn, hcnt]

/-- Concrete instantiation of `c1_requirements_gate_before_submission`: in an
environment whose requirements report the token disallowed, `placeBet` fails
with the disallowed-token error and submits nothing. -/
theorem c1_requirements_gate_before_submission_witness :
    (placeBet disallowedEnv GameType.cointoss witnessBetParams).1 =
      .error "The token isn't allowed for betting" ∧
    Event.sendTransaction 1200 ∉
      (placeBet disallowedEnv GameType.cointoss witnessBetParams).2 :=
  let k := (c1_requirements_gate_before_submission disallowedEnv GameType.cointoss
    witnessBetParams).2 _ rfl
  ⟨(k.1 rfl).1, (k.1 rfl).2 1200⟩

/-- **C7**: on the successful submission path, the VRF cost attached to the
transaction-value computation is the API fee inflated by 20% in exact bigint
arithmetic, i.e. `floor(apiFee * 120 / 100)`; moreover it is the only VRF cost
any `sendTransaction` event of the trace carries. -/
theorem c7_vrf_fee_margin :
    ∀ (env : Env) (game : GameType) (p : CasinoGameParams)
      (req : BetRequirements) (fee : Int) (txh : String),
      env.betRequirements = .ok req →
      req.isAllowed = true →
      p.betAmount ≤ req.maxBetAmount →
      p.betCount ≤ req.maxBetCount →
      env.vrfFee = .ok fee →
      0 ≤ fee →
      env.sendTx = .ok txh →
      (placeBet env game p).1 = .ok txh ∧
      Event.sendTransaction (Int.fdiv (fee * 120) 100) ∈ (placeBet env game p).2 ∧
      (∀ v, Event.sendTransaction v ∈ (placeBet env game p).2 →
        v = Int.fdiv (fee * 120) 100) := by
  intro env game p req fee txh hreq hall hamt hcnt hfee hfp hsend
  have hd : bigIntDiv (fee * 120) 100 = Int.fdiv (fee * 120) 100 := by
    have h1 : Int.tdiv (fee * 120) 100 = (fee * 120) / 100 :=
      Int.tdiv_eq_ediv (by positivity) (by omega)
    have h2 : Int.fdiv (fee * 120) 100 = (fee * 120) / 100 :=
      Int.fdiv_eq_ediv _ (by omega)
    rw [bigIntDiv, h1, h2]
  have hn1 : ¬ (req.maxBetAmount < p.betAmount) := not_lt.mpr hamt
  have hn2 : ¬ (req.maxBetCount < p.betCount) := not_lt.mpr hcnt
  refine ⟨?_, ?_, ?_⟩
  · simp [placeBet, hreq, hall, hn1, hn2, hfee, hsend]
  · simp [placeBet, hreq, hall, hn1, hn2, hfee, hsend, hd]
  · intro v hv
    simp [placeBet, hreq, hall, hn1, hn2, hfee, hsend, hd] at hv
    exact hv

/-- Concrete instantiation of `c7_vrf_fee_margin`: with an API fee of 1000 the
submitted VRF cost is 1200. -/
theorem c7_vrf_fee_margin_witness :
    (placeBet baseEnv GameType.cointoss witnessBetParams).1 = .ok "0xbet" ∧
    Event.sendTransaction (Int.fdiv (1000 * 120) 100) ∈
      (placeBet baseEnv GameType.cointoss witnessBetParams).2 :=
  let k := c7_vrf_fee_margin baseEnv GameType.cointoss witnessBetParams
    { isAllowed := true, maxBetAmount := 10000000000000000000, maxBetCount := 100 }
    1000 "0xbet" rfl rfl (by decide) (by decide) rfl (by decide) rfl
  ⟨k.1, k.2.1⟩

/-- `getBetToken` performs at most one network call: its trace is empty (native
token path) or the single token-list read. -/
theorem getBetToken_trace (env : Env) (i : Option String) :
    (getBetToken env i).2 = [] ∨ (getBetToken env i).2 = [Event.readCasinoTokens] := by
  unfold getBetToken
  rcases i with _ | s
  · simp
  · by_cases hs : s = "" ∨ s = env.nativeCurrency.symbol
    · simp [hs]
    · rcases env.casinoTokens with e | l
      · simp [hs]
      · rcases h : l.find? (fun t => t.symbol = s) with _ | t <;> simp [hs, h]

/-- In any run of the shared bet-action body, every `placeBetCall` event
carries the action's own game tag and the hard-coded parameter record:
`betCount = 1`, receiver the wallet's own address, zero stop-gain and
stop-loss. -/
theorem runCasinoBetAction_placeBetCall (parseUnits : String → Nat → Int)
    (env : Env) (game : GameType) (args : CasinoBetArgs) :
    ∀ (g : GameType) (q : CasinoGameParams),
      Event.placeBetCall g q ∈ (runCasinoBetAction parseUnits env game args).2 →
      g = game ∧ q.betCount = 1 ∧ q.receiver = env.walletAddress ∧
      q.stopGain = 0 ∧ q.stopLoss = 0 := by
  intro g q hmem
  have hfields : ∀ (amt : Int) (tok : Token),
      Event.placeBetCall g q ∈ (placeBet env game
        { betAmount := amt, betToken := tok, betCount := 1,
          receiver := env.walletAddress, stopGain := 0, stopLoss := 0 }).2 →
      g = game ∧ q.betCount = 1 ∧ q.receiver = env.walletAddress ∧
      q.stopGain = 0 ∧ q.stopLoss = 0 := by
    intro amt tok h2
    obtain ⟨hg, hq⟩ := placeBet_placeBetCall env game _ g q h2
    subst hq
    exact ⟨hg, rfl, rfl, rfl, rfl⟩
  unfold runCasinoBetAction at hmem
  rcases hgp : env.gamePaused with e | b <;> simp only [hgp] at hmem
  · simp at hmem
  rcases htok : (getBetToken env args.token).1 with e2 | tok <;>
    simp only [htok] at hmem
  · rcases getBetToken_trace env args.token with ht | ht <;>
      rw [ht] at hmem <;> simp at hmem
  rcases hamt : getBetAmountInWei parseUnits args.betAmount tok with e3 | amt <;>
    simp only [hamt] at hmem
  · rcases getBetToken_trace env args.token with ht | ht <;>
      rw [ht] at hmem <;> simp at hmem
  rcases hpr : (placeBet env game
      { betAmount := amt, betToken := tok, betCount := 1,
        receiver := env.walletAddress, stopGain := 0, stopLoss := 0 }).1 with e4 | hsh <;>
    simp only [hpr] at hmem <;>
    rcases getBetToken_trace env args.token with ht | ht <;>
    rw [ht] at hmem <;>
    simp only [List.mem_cons, List.nil_append, List.cons_append, List.mem_append,
      List.mem_map, List.mem_range] at hmem
  · rcases hmem with hmem | hmem
    · exact absurd hmem (by simp)
    · exact hfields amt tok hmem
  · rcases hmem with hmem | hmem | hmem
    · exact absurd hmem (by simp)
    · exact absurd hmem (by simp)
    · exact hfields amt tok hmem
  · rcases hmem with hmem | hmem | hmem
    · exact absurd hmem (by simp)
    · exact hfields amt tok hmem
    · obtain ⟨i, -, hi⟩ := hmem
      exact absurd hi (by simp)
  · rcases hmem with hmem | hmem | hmem | hmem
    · exact absurd hmem (by simp)
    · exact absurd hmem (by simp)
    · exact hfields amt tok hmem
    · obtain ⟨i, -, hi⟩ := hmem
      exact absurd hi (by simp)

/-- **C3**: whatever `betCount`, `receiver`, `stopGain` and `stopLoss` the
validated input carries, the bet each of the three actions hands to `placeBet`
uses `betCount = 1`, the wallet provider's own address as receiver, and zero
stop-gain and stop-loss. -/
theorem c3_hardcoded_bet_parameters :
    ∀ (parseUnits : String → Nat → Int) (env : Env) (args : CasinoBetArgs)
      (g : GameType) (q : CasinoGameParams),
      (Event.placeBetCall g q ∈ (coinTossAction parseUnits env args).2 →
        q.betCount = 1 ∧ q.receiver = env.walletAddress ∧
        q.stopGain = 0 ∧ q.stopLoss = 0) ∧
      (Event.placeBetCall g q ∈ (diceAction parseUnits env args).2 →
        q.betCount = 1 ∧ q.receiver = env.walletAddress ∧
        q.stopGain = 0 ∧ q.stopLoss = 0) ∧
      (Event.placeBetCall g q ∈ (rouletteAction parseUnits env args).2 →
        q.betCount = 1 ∧ q.receiver = env.walletAddress ∧
        q.stopGain = 0 ∧ q.stopLoss = 0) :=
  fun parseUnits env args g q =>
    ⟨fun h => (runCasinoBetAction_placeBetCall parseUnits env GameType.cointoss args g q h).2,
     fun h => (runCasinoBetAction_placeBetCall parseUnits env GameType.dice args g q h).2,
     fun h => (runCasinoBetAction_placeBetCall parseUnits env GameType.roulette args g q h).2⟩

/-- Concrete instantiation of `c3_hardcoded_bet_parameters`: the parameter
record actually passed in a concrete coin-toss run (whose input requested
`betCount = 7` and a foreign receiver) is the hard-coded one. -/
theorem c3_hardcoded_bet_parameters_witness :
    witnessBetParams.betCount = 1 ∧
    witnessBetParams.receiver = baseEnv.walletAddress ∧
    witnessBetParams.stopGain = 0 ∧ witnessBetParams.stopLoss = 0 :=
  (c3_hardcoded_bet_parameters oneEthParseUnits baseEnv
    { betAmount := "1.0", betCount := some 7,
      receiver := some "0x2222222222222222222222222222222222222222",
      stopGain := some "5", stopLoss := some "5" }
    GameType.cointoss witnessBetParams).1 (by decide)

/-- **C5 (counterexample)**: with an amount string converting to 0, the
coin-toss action does fail with the amount-conversion error, but a network
call — the game-paused contract read of `checkLiveGame` — has already
occurred by then, contradicting the claim that the failure precedes any
network call. -/
theorem c5_counterexample_network_call_before_amount_error :
    (coinTossAction zeroParseUnits baseEnv { betAmount := "0" }).1 =
      .error "The bet amount must be greater than 0" ∧
    (coinTossAction zeroParseUnits baseEnv { betAmount := "0" }).2 =
      [Event.readGamePaused] ∧
    Event.isNetworkCall Event.readGamePaused = true :=
  ⟨rfl, rfl, rfl⟩

/-- **C5 (amended)**: when the amount string converts to a value ≤ 0, the bet
action fails with the amount-conversion error before the bet-requirements
read, the fee-API call, the transaction submission and the indexer fetches —
the only network calls that can already have occurred are the game-paused
contract read and the token-list contract read. -/
theorem c5_amount_gate_before_submission :
    ∀ (parseUnits : String → Nat → Int) (env : Env) (game : GameType)
      (args : CasinoBetArgs) (b : Bool) (tok : Token),
      env.gamePaused = .ok b →
      (getBetToken env args.token).1 = .ok tok →
      parseUnits args.betAmount tok.decimals ≤ 0 →
      (runCasinoBetAction parseUnits env game args).1 =
        .error "The bet amount must be greater than 0" ∧
      ∀ ev ∈ (runCasinoBetAction parseUnits env game args).2,
        ev = Event.readGamePaused ∨ ev = Event.readCasinoTokens := by
  intro parseUnits env game args b tok hgp htok hle
  have hamt : getBetAmountInWei parseUnits args.betAmount tok =
      .error "The bet amount must be greater than 0" := by
    simp [getBetAmountInWei, hle]
  constructor
  · simp [runCasinoBetAction, hgp, htok, hamt]
  · intro ev hev
    simp only [runCasinoBetAction, hgp, htok, hamt] at hev
    rcases getBetToken_trace env args.token with ht | ht <;> rw [ht] at hev <;>
      simp at hev <;> tauto

/-- Concrete instantiation of `c5_amount_gate_before_submission`. -/
theorem c5_amount_gate_before_submission_witness :
    (runCasinoBetAction zeroParseUnits baseEnv GameType.cointoss
      { betAmount := "0" }).1 = .error "The bet amount must be greater than 0" :=
  (c5_amount_gate_before_submission zeroParseUnits baseEnv GameType.cointoss
    { betAmount := "0" } false tokETH rfl rfl (by decide)).1

/-- **C6 (counterexample)**: the empty string is a supplied symbol distinct
from the native-currency symbol, yet `getBetToken` returns the native token
without fetching the token list (JS truthiness: `tokenSymbolInput &&...` is
falsy for `""`), where the claim demands a list fetch and an exact-match
lookup. -/
theorem c6_counterexample_empty_symbol :
    some "" ≠ (none : Option String) ∧
    "" ≠ baseEnv.nativeCurrency.symbol ∧
    getBetToken baseEnv (some "") = (.ok baseEnv.nativeCurrency, []) :=
  ⟨by decide, by decide, rfl⟩

/-- **C6 (amended)**: if no symbol is supplied, the empty string is supplied,
or the native-currency symbol is supplied, `getBetToken` returns the native
token descriptor with no network call; otherwise it performs exactly the
token-list read and returns a listed token whose symbol equals the input
exactly (the first such), failing — when no exact match exists — with the
message enumerating the symbols of all tokens in the fetched list. -/
theorem c6_token_resolution :
    ∀ (env : Env) (input : Option String),
      ((input = none ∨ input = some "" ∨ input = some env.nativeCurrency.symbol) →
        getBetToken env input = (.ok env.nativeCurrency, [])) ∧
      (∀ s L, input = some s → s ≠ "" → s ≠ env.nativeCurrency.symbol →
        env.casinoTokens = .ok L →
        (getBetToken env input).2 = [Event.readCasinoTokens] ∧
        (∀ t, (getBetToken env input).1 = .ok t → t ∈ L ∧ t.symbol = s) ∧
        ((∃ t ∈ L, t.symbol = s) → ∃ t, (getBetToken env input).1 = .ok t) ∧
        ((∀ t ∈ L, t.symbol ≠ s) →
          (getBetToken env input).1 = .error ("The token must be one of " ++
            String.intercalate ", " (L.map Token.symbol)))) := by
  intro env input
  constructor
  · rintro (h | h | h) <;> subst h <;> simp [getBetToken]
  · intro s L hin hne hnn hct
    subst hin
    have hcond : ¬ (s = "" ∨ s = env.nativeCurrency.symbol) := by tauto
    rcases hf : L.find? (fun t => t.symbol = s) with _ | t
    · have heq : getBetToken env (some s) =
          (.error ("The token must be one of " ++
            String.intercalate ", " (L.map Token.symbol)), [Event.readCasinoTokens]) := by
        simp [getBetToken, hcond, hct, hf]
      rw [heq]
      refine ⟨rfl, ?_, ?_, fun _ => rfl⟩
      · intro t ht
        exact absurd ht (by simp)
      · rintro ⟨t, htL, hts⟩
        have hnone := List.find?_eq_none.mp hf t htL
        simp [hts] at hnone
    · have hmem := List.mem_of_find?_eq_some hf
      have hsym : t.symbol = s := by simpa using List.find?_some hf
      have heq : getBetToken env (some s) = (.ok t, [Event.readCasinoTokens]) := by
        simp [getBetToken, hcond, hct, hf]
      rw [heq]
      refine ⟨rfl, ?_, fun _ => ⟨t, rfl⟩, ?_⟩
      · intro t2 ht2
        simp only [Except.ok.injEq] at ht2
        subst ht2
        exact ⟨hmem, hsym⟩
      · intro hall
        exact absurd hsym (hall t hmem)

/-- Concrete instantiation of `c6_token_resolution`: resolving `"USDC"`
against `baseEnv` performs the token-list read and returns the USDC token. -/
theorem c6_token_resolution_witness :
    (getBetToken baseEnv (some "USDC")).2 = [Event.readCasinoTokens] ∧
    ∃ t, (getBetToken baseEnv (some "USDC")).1 = .ok t :=
  let k := (c6_token_resolution baseEnv (some "USDC")).2 "USDC" [tokUSDC]
    rfl (by decide) (by decide) rfl
  ⟨k.1, k.2.2.1 ⟨tokUSDC, by decide, by decide⟩⟩

/-- **C8 (counterexample)**: when the indexer list query reports an error,
`getSubgraphBets` fails, but the error reaching the caller is not the
indexer's error object: its message is the indexer message embedded in two
fixed wrapper prefixes. -/
theorem c8_counterexample_error_wrapped :
    betsErrorEnv.fetchBets.error = some { code := "429", message := "rate limited" } ∧
    getSubgraphBets betsErrorEnv =
      .error "An error occured while getting the bet: Error: [429] Error fetching bets: rate limited" ∧
    "An error occured while getting the bet: Error: [429] Error fetching bets: rate limited" ≠
      "rate limited" :=
  ⟨rfl, rfl, by decide⟩

/-- **C8 (amended)**: when the indexer reports an error, `getSubgraphBets`
fails and the error message embeds the indexer's code and message — the
message verbatim as a suffix — inside the fixed prefixes
`[code] Error fetching bets:` and `An error occured while getting the bet:`,
rather than propagating the indexer error unchanged. -/
theorem c8_indexer_error_wrapped :
    ∀ (env : Env) (e : IndexerError),
      env.fetchBets.error = some e →
      getSubgraphBets env =
        .error (wrapGetBetError ("[" ++ e.code ++ "] Error fetching bets: " ++ e.message)) ∧
      e.message.data <:+
        (wrapGetBetError ("[" ++ e.code ++ "] Error fetching bets: " ++ e.message)).data := by
  intro env e he
  constructor
  · simp [getSubgraphBets, he]
  · refine ⟨("An error occured while getting the bet: Error: " ++
      ("[" ++ e.code ++ "] Error fetching bets: ")).data, ?_⟩
    simp [wrapGetBetError, String.data_append, List.append_assoc]

/-- Concrete instantiation of `c8_indexer_error_wrapped`. -/
theorem c8_indexer_error_wrapped_witness :
    getSubgraphBets betsErrorEnv =
      .error (wrapGetBetError ("[" ++ "429" ++ "] Error fetching bets: " ++ "rate limited")) :=
  (c8_indexer_error_wrapped betsErrorEnv { code := "429", message := "rate limited" } rfl).1

/-- **C10**: every token `getCasinoTokens` returns arises from a raw on-chain
record with `allowed = true` and `paused = false`; consequently, a token that
`getBetToken` resolves through the list lookup arises from such a record, and
every symbol in the failure-message enumeration is the symbol of such a
token. -/
theorem c10_only_allowed_unpaused_tokens :
    ∀ (conv : RawCasinoToken → Token) (raws : List RawCasinoToken) (env : Env),
      (∀ t ∈ getCasinoTokens conv raws, ∃ r ∈ raws,
        r.token.allowed = true ∧ r.token.paused = false ∧
        t = { conv r with decimals := r.decimals }) ∧
      (env.casinoTokens = .ok (getCasinoTokens conv raws) →
        (∀ s t, (getBetToken env (some s)).1 = .ok t →
          t = env.nativeCurrency ∨ ∃ r ∈ raws,
            r.token.allowed = true ∧ r.token.paused = false ∧
            t = { conv r with decimals := r.decimals }) ∧
        (∀ sym ∈ (getCasinoTokens conv raws).map Token.symbol, ∃ r ∈ raws,
          r.token.allowed = true ∧ r.token.paused = false ∧
          sym = ({ conv r with decimals := r.decimals } : Token).symbol)) := by
  intro conv raws env
  have hbase : ∀ t ∈ getCasinoTokens conv raws, ∃ r ∈ raws,
      r.token.allowed = true ∧ r.token.paused = false ∧
      t = { conv r with decimals := r.decimals } := by
    intro t ht
    simp only [getCasinoTokens, List.mem_map, List.mem_filter] at ht
    obtain ⟨r, ⟨hrmem, hflags⟩, hconv⟩ := ht
    simp only [Bool.and_eq_true, Bool.not_eq_true'] at hflags
    exact ⟨r, hrmem, hflags.1, hflags.2, hconv.symm⟩
  refine ⟨hbase, fun hct => ⟨?_, ?_⟩⟩
  · intro s t hok
    by_cases hcond : s = "" ∨ s = env.nativeCurrency.symbol
    · left
      have heq : getBetToken env (some s) = (.ok env.nativeCurrency, []) := by
        simp only [getBetToken]
        rw [if_pos hcond]
      rw [heq] at hok
      simp only [Except.ok.injEq] at hok
      exact hok.symm
    · rcases hf : (getCasinoTokens conv raws).find? (fun t2 => t2.symbol = s)
        with _ | t3
      · have heq : (getBetToken env (some s)).1 = .error ("The token must be one of " ++
            String.intercalate ", " ((getCasinoTokens conv raws).map Token.symbol)) := by
          simp [getBetToken, hcond, hct, hf]
        rw [heq] at hok
        exact absurd hok (by simp)
      · have heq : (getBetToken env (some s)).1 = .ok t3 := by
          simp [getBetToken, hcond, hct, hf]
        rw [heq] at hok
        simp only [Except.ok.injEq] at hok
        subst hok
        exact .inr (hbase t3 (List.mem_of_find?_eq_some hf))
  · intro sym hsym
    simp only [List.mem_map] at hsym
    obtain ⟨t, ht, hts⟩ := hsym
    obtain ⟨r, hr, ha, hp, hconv⟩ := hbase t ht
    exact ⟨r, hr, ha, hp, by rw [← hts, hconv]⟩

/-- Concrete instantiation of `c10_only_allowed_unpaused_tokens`: a filtered
list of one allowed, one disallowed and one paused raw token keeps only the
allowed, unpaused one. -/
theorem c10_only_allowed_unpaused_tokens_witness :
    ∃ r ∈ rawsW, r.token.allowed = true ∧ r.token.paused = false ∧
      Token.mk "AAA" "0xa" 18 = { convW r with decimals := r.decimals } :=
  (c10_only_allowed_unpaused_tokens convW rawsW baseEnv).1
    (Token.mk "AAA" "0xa" 18) (by decide)

end BetSwirl

